import Mathlib

/-!
Shallow embedding of the `stateToHTML` markup generator
(`src/stateToHTML.js` of the draft-js-export-html fork) in Lean 4, together
with theorems settling the specification claims about it.

JavaScript objects used as string-keyed dictionaries are modelled as
insertion-ordered association lists (`List (String × α)`); `hasOwnProperty`
is key membership, property read is first-match lookup, property write
overwrites in place (keeping position) or appends, and `Object.assign`
folds writes over the source's entries.  Strings are Lean `String`s
(lists of characters); entity data values are strings.
-/

namespace StateToHtml

/-! ### Association-list model of JavaScript objects -/

/-- First-match lookup, the model of reading a property of a JS object. -/
def assocLookup (m : List (String × α)) (k : String) : Option α :=
  (m.find? (fun p => p.1 = k)).map (·.2)

/-- Model of `hasOwnProperty`. -/
def assocHas (m : List (String × α)) (k : String) : Bool :=
  (assocLookup m k).isSome

/-- Model of property assignment `m[k] = v`: overwrite in place (keeping the
key's position) when present, append otherwise. -/
def assocSet (m : List (String × α)) (k : String) (v : α) : List (String × α) :=
  if assocHas m k then
    m.map (fun p => if p.1 = k then (p.1, v) else p)
  else
    m ++ [(k, v)]

/-- Model of `Object.assign(target, src)`: fold property writes over the
source's entries in order. -/
def objAssign (target src : List (String × α)) : List (String × α) :=
  src.foldl (fun t p => assocSet t p.1 p.2) target

/-! ### Data model

The document model (blocks, per-character metadata, entities) is the
external collaborator the generator reads; it is modelled from the spec's
section 3. -/

/-- Per-character metadata: the set of active inline style names and the
optional annotation (entity) key.  Modelled from the spec: per-character
style/annotation-key lookup of the document model. -/
structure CharMeta where
  styles : List String
  entity : Option String
deriving DecidableEq

/-- A resolved annotation: type plus data mapping.  Modelled from the spec:
annotation resolved via a caller-supplied lookup from key to
type-and-data. -/
structure EntityInstance where
  type : String
  data : List (String × String)
deriving DecidableEq

/-- One content block: type, raw text, list depth and per-character
metadata. -/
structure ContentBlock where
  type : String
  text : String
  depth : Nat
  chars : List CharMeta

/-- Per-style render configuration `{element?, attributes?, style?}`. -/
structure RenderConfig where
  element : Option String := none
  attributes : Option (List (String × Option String)) := none
  style : Option (List (String × String)) := none

/-- An entity attributes renderer.  The first argument is the (shared,
possibly merged) entity attribute table the built-in default renderer
closes over; caller-supplied renderers ignore it. -/
def AttrRenderer : Type :=
  List (String × List (String × String)) → String → EntityInstance →
    List (String × Option String)

/-- An entity formatter: inner content, serialized attribute string and the
raw entity data produce the final markup for the range. -/
def EntityFormatter : Type :=
  String → String → List (String × String) → String

/-- The options object accepted by the generator's constructor. -/
structure Options where
  inlineStyles : Option (List (String × RenderConfig)) := none
  blockRenderers : Option (List (String × (ContentBlock → Option String))) := none
  blockStyleFn : Option (ContentBlock → Option RenderConfig) := none
  entityGetter : Option (String → Option EntityInstance) := none
  entityFormatterMap : Option (List (String × EntityFormatter)) := none
  entityAttributesMap : Option (List (String × List (String × String))) := none
  entityAttributesRendererMap : Option (List (String × AttrRenderer)) := none

/-! ### Module-level constants of `stateToHTML.js` -/

def INDENT : String := "  "

def BREAK : String := "<br>"

/-- `/^data-([a-z0-9-]+)$/.test(s)`: the string is `data-` followed by a
nonempty run of lowercase letters, digits or hyphens. -/
def isDataAttribute (s : String) : Bool :=
  s.data.take 5 = "data-".data &&
    s.data.drop 5 ≠ [] &&
    (s.data.drop 5).all (fun c => c.isLower || c.isDigit || c = '-')

/-- `DEFAULT_STYLE_MAP`. -/
def DEFAULT_STYLE_MAP : List (String × RenderConfig) :=
  [("BOLD", {element := some "strong"}),
   ("CODE", {element := some "code"}),
   ("ITALIC", {element := some "em"}),
   ("STRIKETHROUGH", {element := some "del"}),
   ("UNDERLINE", {element := some "ins"})]

/-- `DEFAULT_STYLE_ORDER`: inner-most style to outer-most. -/
def DEFAULT_STYLE_ORDER : List String :=
  ["BOLD", "ITALIC", "UNDERLINE", "STRIKETHROUGH", "CODE"]

/-- `ENTITY_ATTR_MAP`: per entity type, map from entity data key to element
attribute name. -/
def ENTITY_ATTR_MAP : List (String × List (String × String)) :=
  [("LINK", [("url", "href"), ("rel", "rel"), ("target", "target"),
             ("title", "title"), ("className", "class")]),
   ("IMAGE", [("src", "src"), ("height", "height"), ("width", "width"),
              ("alt", "alt"), ("className", "class")])]

/-- The built-in `LINK` entity formatter. -/
def linkFormatter : EntityFormatter :=
  fun content attrString _entityData => "<a" ++ attrString ++ ">" ++ content ++ "</a>"

/-- The built-in `IMAGE` entity formatter. -/
def imageFormatter : EntityFormatter :=
  fun _content attrString _entityData => "<img" ++ attrString ++ "/>"

/-- The built-in `DEFAULT` entity formatter.  The source's template literal
reads `<span$attrString}>...` — it is missing the opening brace of the
interpolation, so `$attrString\x7d` is emitted literally and the attribute
string argument is never spliced in. -/
def defaultFormatter : EntityFormatter :=
  fun content _attrString _entityData =>
    "<span$attrString\x7d>" ++ content ++ "</span>"

/-- `ENTITY_FORMATTER_MAP`. -/
def ENTITY_FORMATTER_MAP : List (String × EntityFormatter) :=
  [("LINK", linkFormatter), ("IMAGE", imageFormatter), ("DEFAULT", defaultFormatter)]

/-- The `DEFAULT` attributes renderer produced by `DATA_TO_ATTR`: map known
data keys through the per-type attribute table and pass `data-*` keys
through unchanged. -/
def dataToAttrDefault : AttrRenderer :=
  fun entityAttributesMap entityType entity =>
    let attrMap := (assocLookup entityAttributesMap entityType).getD []
    entity.data.foldl
      (fun attrs p =>
        match assocLookup attrMap p.1 with
        | some attrKey => assocSet attrs attrKey (some p.2)
        | none =>
          if isDataAttribute p.1 then assocSet attrs p.1 (some p.2) else attrs)
      []

/-- `DATA_TO_ATTR(entityAttributesMap)`: a fresh renderer map holding only
the `DEFAULT` renderer. -/
def DATA_TO_ATTR : List (String × AttrRenderer) :=
  [("DEFAULT", dataToAttrDefault)]

/-! ### Escaping and whitespace -/

/-- `text.split(sep).join(rep)` for a single-character separator: substitute
every occurrence of the character by the replacement. -/
def substAll (c : Char) (rep : List Char) (s : List Char) : List Char :=
  s.flatMap (fun x => if x = c then rep else [x])

/-- `encodeContent` on character lists: the source's chain of
split/join substitutions, applied in order `&`, `<`, `>`, `\xA0`, `\n`. -/
def encodeContentChars (s : List Char) : List Char :=
  substAll '\n' ("<br>\n".data)
    (substAll '\xA0' ("&nbsp;".data)
      (substAll '>' ("&gt;".data)
        (substAll '<' ("&lt;".data)
          (substAll '&' ("&amp;".data) s))))

def encodeContent (s : String) : String :=
  ⟨encodeContentChars s.data⟩

/-- `encodeAttr` on character lists: substitutions in order
`&`, `<`, `>`, `"`. -/
def encodeAttrChars (s : List Char) : List Char :=
  substAll '"' ("&quot;".data)
    (substAll '>' ("&gt;".data)
      (substAll '<' ("&lt;".data)
        (substAll '&' ("&amp;".data) s)))

def encodeAttr (s : String) : String :=
  ⟨encodeAttrChars s.data⟩

/-- Single-pass description of content escaping: each original character is
substituted independently, exactly once. -/
def escContentChar (c : Char) : List Char :=
  if c = '&' then "&amp;".data
  else if c = '<' then "&lt;".data
  else if c = '>' then "&gt;".data
  else if c = '\xA0' then "&nbsp;".data
  else if c = '\n' then "<br>\n".data
  else [c]

/-- Single-pass description of attribute-value escaping. -/
def escAttrChar (c : Char) : List Char :=
  if c = '&' then "&amp;".data
  else if c = '<' then "&lt;".data
  else if c = '>' then "&gt;".data
  else if c = '"' then "&quot;".data
  else [c]

/-- `String.prototype.toUpperCase`, modelled character by character. -/
def jsToUpper (s : String) : String :=
  ⟨s.data.map Char.toUpper⟩

/-- `stringifyAttrs`: one leading-space `name="escaped-value"` fragment per
attribute with a non-null value, in iteration order. -/
def stringifyAttrs (attrs : Option (List (String × Option String))) : String :=
  match attrs with
  | none => ""
  | some l =>
    String.join (l.filterMap (fun p =>
      p.2.map (fun v => " " ++ p.1 ++ "=\"" ++ encodeAttr v ++ "\"")))

/-- `preserveWhitespace` on character lists: the source's indexed loop over
a fresh array of the same length; a space that is first, last, or preceded
by a space becomes `\xA0`. -/
def preserveWhitespaceChars (t : List Char) : List Char :=
  (List.range t.length).map (fun i =>
    if t.get? i = some ' ' ∧
        (i = 0 ∨ i = t.length - 1 ∨ t.get? (i - 1) = some ' ') then
      '\xA0'
    else
      (t.get? i).getD ' ')

def preserveWhitespace (s : String) : String :=
  ⟨preserveWhitespaceChars s.data⟩

/-! ### Helpers imported from outside `src/`, modelled from the spec -/

/-- Modelled from the spec: `normalizeAttributes` performs attribute-name
normalization, mapping a DOM-style property name to its markup attribute
name (the source's call-site comment: normalize `className` to `class`). -/
def normalizeAttributes (attrs : Option (List (String × Option String))) :
    Option (List (String × Option String)) :=
  attrs.map (List.map (fun p =>
    (if p.1 = "className" then "class" else p.1, p.2)))

/-- Modelled from the spec: `styleToCSS` performs string-level CSS property
serialization of a style-property mapping. -/
def styleToCSS (style : List (String × String)) : String :=
  String.intercalate "; " (style.map (fun p => p.1 ++ ": " ++ p.2))

/-- Modelled from the spec: `combineOrderedStyles` merges caller-supplied
inline styles over the defaults as a pure value — caller entries take
precedence and caller-supplied style names are appended after the default
order unless already present. -/
def combineOrderedStyles
    (custom : Option (List (String × RenderConfig)))
    (defaults : List (String × RenderConfig) × List String) :
    List (String × RenderConfig) × List String :=
  match custom with
  | none => defaults
  | some cs =>
    (objAssign defaults.1 cs,
     defaults.2 ++ (cs.map (·.1)).filter (fun n => ¬ defaults.2.contains n))

/-- Modelled from JavaScript's `String.prototype.trim`: strip leading and
trailing whitespace characters. -/
def jsWhitespace (c : Char) : Bool :=
  c = ' ' || c = '\t' || c = '\n' || c = '\r' || c = '\x0b' || c = '\x0c' || c = '\xa0'

def jsTrim (s : String) : String :=
  ⟨((s.data.dropWhile jsWhitespace).reverse.dropWhile jsWhitespace).reverse⟩

/-- Accumulate the current run (kept in reverse) while the key matches,
emitting finished runs in order. -/
def spanRunsAux {α β : Type} [DecidableEq β] (key : α → β) (cur : β)
    (acc : List α) : List α → List (β × List α)
  | [] => [(cur, acc.reverse)]
  | y :: ys =>
    if key y = cur then spanRunsAux key cur (y :: acc) ys
    else (cur, acc.reverse) :: spanRunsAux key (key y) [y] ys

/-- Maximal runs of consecutive elements sharing the same key, in order:
the common grouping underlying style runs and entity ranges. -/
def spanRuns {α β : Type} [DecidableEq β] (key : α → β) : List α → List (β × List α)
  | [] => []
  | x :: xs => spanRunsAux key (key x) [x] xs

/-- Modelled from the spec: `getEntityRanges` splits a block's text into
maximal contiguous ranges sharing the same annotation key, each holding its
maximal style runs (ranges sharing an identical active-style set). -/
def getEntityRanges (text : List Char) (metas : List CharMeta) :
    List (Option String × List (List Char × List String)) :=
  (spanRuns (fun p => p.2.entity) (text.zip metas)).map (fun r =>
    (r.1, (spanRuns (fun p => p.2.styles) r.2).map (fun sr =>
      (sr.2.map (·.1), sr.1))))

/-! ### The generator's configuration (instance fields after construction) -/

/-- The instance fields of `MarkupGenerator` set by its constructor. -/
structure GenConfig where
  options : Options
  entityGetter : String → Option EntityInstance
  entityFormatterMap : List (String × EntityFormatter)
  entityAttributesMap : List (String × List (String × String))
  entityAttributesRendererMap : List (String × AttrRenderer)
  inlineStyles : List (String × RenderConfig)
  styleOrder : List String

/-- Modelled from the spec: the default `entityGetter` reaches into the
ambient global annotation registry; annotation resolution failure is
treated as an absent annotation, so the empty registry resolves nothing. -/
def defaultEntityGetter : String → Option EntityInstance :=
  fun _ => none

/-- The module-level mutable tables of `stateToHTML.js`, threaded
explicitly so that in-place mutation by the constructor is observable. -/
structure ModuleTables where
  entityFormatterMap : List (String × EntityFormatter)
  entityAttrMap : List (String × List (String × String))
  defaultStyleMap : List (String × RenderConfig)
  defaultStyleOrder : List String

/-- The tables as initialized at module load. -/
def initialTables : ModuleTables :=
  {entityFormatterMap := ENTITY_FORMATTER_MAP,
   entityAttrMap := ENTITY_ATTR_MAP,
   defaultStyleMap := DEFAULT_STYLE_MAP,
   defaultStyleOrder := DEFAULT_STYLE_ORDER}

/-- The `MarkupGenerator` constructor.  `this.entityFormatterMap` and
`this.entityAttributesMap` alias the module-level tables, so the
`Object.assign` merge of the corresponding options writes through to them:
the returned `ModuleTables` carry the mutation.  The attributes-renderer
map is a fresh `DATA_TO_ATTR` object, so its merge stays per-instance. -/
def mkGenerator (tables : ModuleTables) (options : Options) :
    ModuleTables × GenConfig :=
  let efm := match options.entityFormatterMap with
    | some m => objAssign tables.entityFormatterMap m
    | none => tables.entityFormatterMap
  let eam := match options.entityAttributesMap with
    | some m => objAssign tables.entityAttrMap m
    | none => tables.entityAttrMap
  let earm := match options.entityAttributesRendererMap with
    | some m => objAssign DATA_TO_ATTR m
    | none => DATA_TO_ATTR
  let entityGetter := match options.entityGetter with
    | some g => g
    | none => defaultEntityGetter
  let styles := combineOrderedStyles options.inlineStyles
    (tables.defaultStyleMap, tables.defaultStyleOrder)
  ({tables with entityFormatterMap := efm, entityAttrMap := eam},
   {options := options,
    entityGetter := entityGetter,
    entityFormatterMap := efm,
    entityAttributesMap := eam,
    entityAttributesRendererMap := earm,
    inlineStyles := styles.1,
    styleOrder := styles.2})

/-! ### Style stack renderer and block content rendering -/

/-- The inner style loop of `renderBlockContent`: fold the configured style
order over the content, wrapping it for each style present in the run's
style set (skipping the `CODE` style inside a `code-block`). -/
def applyStyles (cfg : GenConfig) (blockType : String) (styleSet : List String)
    (content : String) : String :=
  cfg.styleOrder.foldl
    (fun content styleName =>
      if styleName = "CODE" ∧ blockType = "code-block" then content
      else if styleSet.contains styleName then
        let rc := (assocLookup cfg.inlineStyles styleName).getD {}
        let element := rc.element.getD "span"
        let attributes := normalizeAttributes rc.attributes
        let attributes := match rc.style with
          | some st => some (assocSet (attributes.getD []) "style" (some (styleToCSS st)))
          | none => attributes
        "<" ++ element ++ stringifyAttrs attributes ++ ">" ++ content ++
          "</" ++ element ++ ">"
      else content)
    content

/-- One entity range of `renderBlockContent`, parametrized by the dead
`DEFAULT`-dispatch branch of the formatter ternary (reached only if the
formatter map both has and does not have the resolved type). -/
def renderEntityPieceAux
    (deadBranch : GenConfig → String → String → EntityInstance → String)
    (cfg : GenConfig) (blockType : String)
    (piece : Option String × List (List Char × List String)) : String :=
  let content := String.join (piece.2.map (fun sp =>
    applyStyles cfg blockType sp.2 (encodeContent ⟨sp.1⟩)))
  match piece.1.bind cfg.entityGetter with
  | none => content
  | some e =>
    let entityType := jsToUpper e.type
    let fmtOpt := assocLookup cfg.entityFormatterMap entityType
    if fmtOpt.isSome then
      let attrs := match assocLookup cfg.entityAttributesRendererMap entityType with
        | some r => r cfg.entityAttributesMap entityType e
        | none =>
          ((assocLookup cfg.entityAttributesRendererMap "DEFAULT").getD
            (fun _ _ _ => [])) cfg.entityAttributesMap entityType e
      match fmtOpt with
      | some f => f content (stringifyAttrs (some attrs)) e.data
      | none => deadBranch cfg content (stringifyAttrs (some attrs)) e
    else content

/-- The actual dead branch: dispatch to the `DEFAULT` entry of the
formatter map. -/
def defaultDeadBranch (cfg : GenConfig) (content attrString : String)
    (e : EntityInstance) : String :=
  ((assocLookup cfg.entityFormatterMap "DEFAULT").getD (fun _ _ _ => ""))
    content attrString e.data

def renderEntityPiece (cfg : GenConfig) (blockType : String)
    (piece : Option String × List (List Char × List String)) : String :=
  renderEntityPieceAux defaultDeadBranch cfg blockType piece

/-- `renderBlockContent`, parametrized like `renderEntityPieceAux`. -/
def renderBlockContentAux
    (deadBranch : GenConfig → String → String → EntityInstance → String)
    (cfg : GenConfig) (block : ContentBlock) : String :=
  if block.text = "" then BREAK
  else
    let text := preserveWhitespace block.text
    let entityPieces := getEntityRanges text.data block.chars
    String.join (entityPieces.map (renderEntityPieceAux deadBranch cfg block.type))

/-- `renderBlockContent`. -/
def renderBlockContent (cfg : GenConfig) (block : ContentBlock) : String :=
  renderBlockContentAux defaultDeadBranch cfg block

/-! ### Block nesting state machine -/

/-- `getTags`: the element tag(s) a block type maps to (a block may get
wrapped in two tags).  Block-type strings are the draft-js-utils
`BLOCK_TYPE` constants. -/
def getTags (blockType : String) : List String :=
  if blockType = "header-one" then ["h1"]
  else if blockType = "header-two" then ["h2"]
  else if blockType = "header-three" then ["h3"]
  else if blockType = "header-four" then ["h4"]
  else if blockType = "header-five" then ["h5"]
  else if blockType = "header-six" then ["h6"]
  else if blockType = "unordered-list-item" then ["li"]
  else if blockType = "ordered-list-item" then ["li"]
  else if blockType = "blockquote" then ["blockquote"]
  else if blockType = "code-block" then ["pre", "code"]
  else if blockType = "atomic" then ["figure"]
  else ["p"]

/-- `getWrapperTag`: the list-wrapper element required by a block type. -/
def getWrapperTag (blockType : String) : Option String :=
  if blockType = "unordered-list-item" then some "ul"
  else if blockType = "ordered-list-item" then some "ol"
  else none

/-- `canHaveDepth`. -/
def canHaveDepth (blockType : String) : Bool :=
  blockType = "unordered-list-item" || blockType = "ordered-list-item"

/-- One entry of the generator's `output` array, tagged by which emit path
pushed it: wrapper start tags and wrapper end tags are pushed only by
`openWrapperTag` / `closeWrapperTag`, everything else is plain text. -/
inductive OutputItem where
  | text (s : String)
  | wrapOpen (tag : String)
  | wrapClose (tag : String)
deriving DecidableEq

/-- The string an output entry contributes to the joined output. -/
def renderItem : OutputItem → String
  | .text s => s
  | .wrapOpen tag => "<" ++ tag ++ ">\n"
  | .wrapClose tag => "</" ++ tag ++ ">\n"

/-- The mutable generator state scoped to one `generate()` call. -/
structure GenState where
  blocks : List ContentBlock
  currentBlock : Nat
  indentLevel : Nat
  output : List OutputItem
  wrapperTag : Option String

def pushItem (s : GenState) (item : OutputItem) : GenState :=
  {s with output := s.output ++ [item]}

/-- `indent()`: push `INDENT.repeat(indentLevel)`. -/
def indentS (s : GenState) : GenState :=
  pushItem s (.text (String.join (List.replicate s.indentLevel INDENT)))

/-- `openWrapperTag`: record the tag, emit the indented start tag, bump the
indent level. -/
def openWrapperTag (s : GenState) (tag : String) : GenState :=
  let s := {s with wrapperTag := some tag}
  let s := indentS s
  let s := pushItem s (.wrapOpen tag)
  {s with indentLevel := s.indentLevel + 1}

/-- `closeWrapperTag`: when a wrapper is open, drop the indent level, emit
the indented end tag and clear the field. -/
def closeWrapperTag (s : GenState) : GenState :=
  match s.wrapperTag with
  | some tag =>
    let s := {s with indentLevel := s.indentLevel - 1}
    let s := indentS s
    let s := pushItem s (.wrapClose tag)
    {s with wrapperTag := none}
  | none => s

/-- The wrapper open/close step at the top of `processBlock`. -/
def wrapperTransition (s : GenState) (newWrapperTag : Option String) : GenState :=
  if s.wrapperTag ≠ newWrapperTag then
    let s := if s.wrapperTag.isSome then closeWrapperTag s else s
    match newWrapperTag with
    | some tag => openWrapperTag s tag
    | none => s
  else s

/-- `writeStartTag`: emit one start tag per element tag of the block's
type, each carrying the `blockStyleFn`-derived attribute string. -/
def writeStartTag (cfg : GenConfig) (s : GenState) (block : ContentBlock) : GenState :=
  let attrString := match cfg.options.blockStyleFn with
    | some f =>
      let rc := (f block).getD {}
      let attributes := normalizeAttributes rc.attributes
      let attributes := match rc.style with
        | some st => some (assocSet (attributes.getD []) "style" (some (styleToCSS st)))
        | none => attributes
      stringifyAttrs attributes
    | none => ""
  (getTags block.type).foldl
    (fun s tag => pushItem s (.text ("<" ++ tag ++ attrString ++ ">"))) s

/-- `writeEndTag`: end tags in reverse order, newline-terminated. -/
def writeEndTag (s : GenState) (block : ContentBlock) : GenState :=
  match getTags block.type with
  | [tag] => pushItem s (.text ("</" ++ tag ++ ">\n"))
  | tags =>
    pushItem s (.text
      (String.join (tags.foldl (fun out tag => ("</" ++ tag ++ ">") :: out) []) ++ "\n"))

mutual

/-- `processBlock`, fueled (every call from the real generator is made with
ample fuel; the invariants below hold for every fuel value). -/
def processBlock (fuel : Nat) (cfg : GenConfig) (s : GenState) : GenState :=
  match fuel with
  | 0 => s
  | fuel + 1 =>
    match s.blocks.get? s.currentBlock with
    | none => s
    | some block =>
      let blockType := block.type
      let s := wrapperTransition s (getWrapperTag blockType)
      let s := indentS s
      let customOut := (cfg.options.blockRenderers.bind
        (fun m => assocLookup m blockType)).bind (fun r => r block)
      match customOut with
      | some out =>
        let s := pushItem s (.text out)
        let s := pushItem s (.text "\n")
        {s with currentBlock := s.currentBlock + 1}
      | none =>
        let s := writeStartTag cfg s block
        let s := pushItem s (.text (renderBlockContent cfg block))
        match s.blocks.get? (s.currentBlock + 1) with
        | some nextBlock =>
          if canHaveDepth blockType ∧ nextBlock.depth = block.depth + 1 then
            let s := pushItem s (.text "\n")
            let thisWrapperTag := s.wrapperTag
            let s := {s with wrapperTag := none,
                             indentLevel := s.indentLevel + 1,
                             currentBlock := s.currentBlock + 1}
            let s := closeWrapperTag (pdLoop fuel cfg nextBlock.depth s)
            let s := {s with wrapperTag := thisWrapperTag,
                             indentLevel := s.indentLevel - 1}
            let s := indentS s
            writeEndTag s block
          else
            writeEndTag {s with currentBlock := s.currentBlock + 1} block
        | none =>
          writeEndTag {s with currentBlock := s.currentBlock + 1} block

/-- The loop of `processBlocksAtDepth` (its trailing `closeWrapperTag` is
applied at the call sites). -/
def pdLoop (fuel : Nat) (cfg : GenConfig) (depth : Nat) (s : GenState) : GenState :=
  match fuel with
  | 0 => s
  | fuel + 1 =>
    match s.blocks.get? s.currentBlock with
    | some block =>
      if block.depth = depth then pdLoop fuel cfg depth (processBlock fuel cfg s)
      else s
    | none => s

end

/-- `processBlocksAtDepth`. -/
def processBlocksAtDepth (fuel : Nat) (cfg : GenConfig) (depth : Nat)
    (s : GenState) : GenState :=
  closeWrapperTag (pdLoop fuel cfg depth s)

/-- The `while (currentBlock < totalBlocks)` loop of `generate`, fueled. -/
def genLoop (fuel : Nat) (cfg : GenConfig) (s : GenState) : GenState :=
  match fuel with
  | 0 => s
  | fuel + 1 =>
    if s.currentBlock < s.blocks.length then
      genLoop fuel cfg (processBlock fuel cfg s)
    else s

/-- The fresh per-call state of `generate`. -/
def initState (blocks : List ContentBlock) : GenState :=
  {blocks := blocks, currentBlock := 0, indentLevel := 0,
   output := [], wrapperTag := none}

/-- Ample fuel for a document: every advance of the cursor or descent into
a nested depth run consumes one unit. -/
def genFuel (blocks : List ContentBlock) : Nat :=
  (blocks.length + 2) * (blocks.length + 2)

/-- The generator state at the point of `generate`'s return (after the
final `closeWrapperTag`). -/
def generateState (cfg : GenConfig) (blocks : List ContentBlock) : GenState :=
  closeWrapperTag (genLoop (genFuel blocks) cfg (initState blocks))

/-- `generate()`: run the state machine, join the output and trim it. -/
def generate (cfg : GenConfig) (blocks : List ContentBlock) : String :=
  jsTrim (String.join ((generateState cfg blocks).output.map renderItem))

/-- `stateToHTML(content, options)`, with the module-level tables threaded
explicitly: returns the tables as left after construction, and the markup
string. -/
def stateToHTML (tables : ModuleTables) (content : List ContentBlock)
    (options : Options) : ModuleTables × String :=
  let r := mkGenerator tables options
  (r.1, generate r.2 content)

/-! ### Wrapper-tag matching -/

/-- Process one output entry against the stack of currently open wrapper
tags (`none` = a wrapper end tag appeared with no matching start tag). -/
def wrapperStep (st : Option (List String)) (item : OutputItem) :
    Option (List String) :=
  match item with
  | .text _ => st
  | .wrapOpen tag => st.map (tag :: ·)
  | .wrapClose tag =>
    match st with
    | some (top :: rest) => if top = tag then some rest else none
    | some [] => none
    | none => none

/-- The stack of wrapper start tags left unmatched by an output prefix;
`some []` means every wrapper start tag has been matched by a wrapper end
tag, in properly nested order. -/
def wrapperPending (out : List OutputItem) : Option (List String) :=
  out.foldl wrapperStep (some [])

/-- The stack of currently open wrapper tags: the generator's `wrapperTag`
field on top of the stashed wrapper tags of the enclosing calls. -/
def wrapperStack : Option String → List String → List String
  | none, ctx => ctx
  | some tag, ctx => tag :: ctx

/-- The wrapper invariant: the wrapper start tags of the output emitted so
far that are still unmatched are exactly the currently open wrappers. -/
def WInv (s : GenState) (ctx : List String) : Prop :=
  wrapperPending s.output = some (wrapperStack s.wrapperTag ctx)

/-! ### A tag-balance checker for concrete markup strings -/

/-- Scan a markup string, maintaining the stack of open element tags:
`true` iff every opened tag is closed exactly once, in properly nested
order (self-closing tags are skipped). -/
def scanTags : Nat → List Char → List String → Bool
  | 0, _, _ => false
  | _ + 1, [], stack => stack.isEmpty
  | fuel + 1, '<' :: '/' :: rest, stack =>
    let name := rest.takeWhile (fun c => c ≠ '>')
    let rest2 := (rest.dropWhile (fun c => c ≠ '>')).drop 1
    (match stack with
     | top :: stack2 => top = String.mk name && scanTags fuel rest2 stack2
     | [] => false)
  | fuel + 1, '<' :: rest, stack =>
    let inner := rest.takeWhile (fun c => c ≠ '>')
    let rest2 := (rest.dropWhile (fun c => c ≠ '>')).drop 1
    if inner.getLast? = some '/' then scanTags fuel rest2 stack
    else scanTags fuel rest2 (String.mk (inner.takeWhile (fun c => c ≠ ' ')) :: stack)
  | fuel + 1, _ :: rest, stack => scanTags fuel rest stack

/-- Every opened element tag of the string is closed exactly once, in
properly nested order. -/
def tagsBalanced (s : String) : Bool :=
  scanTags (s.data.length + 1) s.data []

/-! ### Concrete fixtures used by the claims -/

/-- Character metadata for plain text: no styles, no entities. -/
def plainChars (text : String) : List CharMeta :=
  text.data.map (fun _ => {styles := [], entity := none})

/-- An unordered-list-item block with plain text. -/
def ulBlock (text : String) (depth : Nat) : ContentBlock :=
  {type := "unordered-list-item", text := text, depth := depth,
   chars := plainChars text}

/-- An unstyled (paragraph) block with plain text. -/
def pBlock (text : String) : ContentBlock :=
  {type := "unstyled", text := text, depth := 0, chars := plainChars text}

/-- The generator configuration obtained with no options. -/
def defaultCfg : GenConfig := (mkGenerator initialTables {}).2

/-- A paragraph whose whole text carries the style set stored in iteration
order BOLD, ITALIC. -/
def biBlock : ContentBlock :=
  {type := "unstyled", text := "text", depth := 0,
   chars := "text".data.map (fun _ => {styles := ["BOLD", "ITALIC"], entity := none})}

/-- A resolved link annotation with data `{url: "https://x"}`. -/
def linkEntity : EntityInstance := {type := "LINK", data := [("url", "https://x")]}

/-- An entity getter resolving key `k1` to `linkEntity`. -/
def linkGetter : String → Option EntityInstance :=
  fun k => if k = "k1" then some linkEntity else none

/-- The text run `"click"` carrying annotation key `k1` on every
character. -/
def linkBlock : ContentBlock :=
  {type := "unstyled", text := "click", depth := 0,
   chars := "click".data.map (fun _ => {styles := [], entity := some "k1"})}

/-- Default configuration with `linkGetter` as the entity getter. -/
def linkCfg : GenConfig := (mkGenerator initialTables {entityGetter := some linkGetter}).2

/-- An annotation of type `FOO`, which has no registered formatter. -/
def fooEntity : EntityInstance := {type := "FOO", data := [("url", "https://x")]}

def fooGetter : String → Option EntityInstance :=
  fun k => if k = "k1" then some fooEntity else none

/-- Default configuration with `fooGetter` as the entity getter. -/
def fooCfg : GenConfig := (mkGenerator initialTables {entityGetter := some fooGetter}).2

/-- An annotation whose type string case-normalizes to the `DEFAULT` key of
the formatter map itself. -/
def dEntity : EntityInstance := {type := "default", data := []}

def dGetter : String → Option EntityInstance :=
  fun k => if k = "k1" then some dEntity else none

/-- The text run `"hi"` carrying the `default`-typed annotation. -/
def dBlock : ContentBlock :=
  {type := "unstyled", text := "hi", depth := 0,
   chars := "hi".data.map (fun _ => {styles := [], entity := some "k1"})}

/-- Default configuration with `dGetter` as the entity getter. -/
def dCfg : GenConfig := (mkGenerator initialTables {entityGetter := some dGetter}).2

/-- A caller-supplied replacement for the `DEFAULT` entity formatter. -/
def overrideDefaultFormatter : EntityFormatter :=
  fun content _ _ => "[D]" ++ content ++ "[/D]"

/-- Configuration like `dCfg` but with the `DEFAULT` formatter overridden
through the options. -/
def dCfgB : GenConfig :=
  (mkGenerator initialTables
    {entityGetter := some dGetter,
     entityFormatterMap := some [("DEFAULT", overrideDefaultFormatter)]}).2

/-- A caller-supplied replacement for the `LINK` entity formatter. -/
def overrideLinkFormatter : EntityFormatter :=
  fun content _ _ => "[L]" ++ content ++ "[/L]"

/-- Options overriding the `LINK` formatter, used to witness the in-place
mutation of the module-level formatter table. -/
def overrideLinkOptions : Options :=
  {entityFormatterMap := some [("LINK", overrideLinkFormatter)]}

/-- A throwaway formatter used to vary the `DEFAULT` entry. -/
def junkEntityFormatter : EntityFormatter :=
  fun _ _ _ => "JUNK"

/-! ## Theorems -/

/-! ### Escaping is a single pass (C8) -/

theorem substAll_append (c : Char) (r : List Char) (l₁ l₂ : List Char) :
    substAll c r (l₁ ++ l₂) = substAll c r l₁ ++ substAll c r l₂ := by
  simp [substAll]

theorem encodeContentChars_append (l₁ l₂ : List Char) :
    encodeContentChars (l₁ ++ l₂) = encodeContentChars l₁ ++ encodeContentChars l₂ := by
  simp only [encodeContentChars, substAll_append]

theorem encodeAttrChars_append (l₁ l₂ : List Char) :
    encodeAttrChars (l₁ ++ l₂) = encodeAttrChars l₁ ++ encodeAttrChars l₂ := by
  simp only [encodeAttrChars, substAll_append]

theorem encodeContentChars_single (c : Char) :
    encodeContentChars [c] = escContentChar c := by
  by_cases h1 : c = '&'
  · subst h1; decide
  by_cases h2 : c = '<'
  · subst h2; decide
  by_cases h3 : c = '>'
  · subst h3; decide
  by_cases h4 : c = '\xA0'
  · subst h4; decide
  by_cases h5 : c = '\n'
  · subst h5; decide
  simp [encodeContentChars, substAll, escContentChar, h1, h2, h3, h4, h5]

theorem encodeAttrChars_single (c : Char) :
    encodeAttrChars [c] = escAttrChar c := by
  by_cases h1 : c = '&'
  · subst h1; decide
  by_cases h2 : c = '<'
  · subst h2; decide
  by_cases h3 : c = '>'
  · subst h3; decide
  by_cases h4 : c = '"'
  · subst h4; decide
  simp [encodeAttrChars, substAll, escAttrChar, h1, h2, h3, h4]

theorem encodeContentChars_eq_flatMap (s : List Char) :
    encodeContentChars s = s.flatMap escContentChar := by
  induction s with
  | nil => rfl
  | cons c s ih =>
    rw [show c :: s = [c] ++ s from rfl, encodeContentChars_append,
      List.flatMap_append, encodeContentChars_single, ih]
    simp [List.flatMap_cons]

theorem encodeAttrChars_eq_flatMap (s : List Char) :
    encodeAttrChars s = s.flatMap escAttrChar := by
  induction s with
  | nil => rfl
  | cons c s ih =>
    rw [show c :: s = [c] ++ s from rfl, encodeAttrChars_append,
      List.flatMap_append, encodeAttrChars_single, ih]
    simp [List.flatMap_cons]

/-- C8: escaping is applied exactly once per render pass.  The staged
substitution chains of `encodeContent` and `encodeAttr` each coincide with
a single independent substitution of every character of the original text,
so each literal reserved character becomes exactly one entity and the
ampersands of entities produced by the escaper are never re-escaped; the
concrete conjuncts exhibit one level of substitution for `&`, `<`, `>` in
content and `&`, `"` in attribute values serialized by
`stringifyAttrs`. -/
theorem claim_C8 :
    (∀ s : List Char, encodeContentChars s = s.flatMap escContentChar) ∧
    (∀ s : List Char, encodeAttrChars s = s.flatMap escAttrChar) ∧
    encodeContent "&<>" = "&amp;&lt;&gt;" ∧
    encodeContent "&amp;" = "&amp;amp;" ∧
    encodeAttr "\"&" = "&quot;&amp;" ∧
    stringifyAttrs (some [("href", some "a&b\"")]) = " href=\"a&amp;b&quot;\"" := by
  exact ⟨encodeContentChars_eq_flatMap, encodeAttrChars_eq_flatMap,
    by decide, by decide, by decide, by decide⟩

/-! ### Whitespace preservation (C7) -/

theorem preserveWhitespaceChars_get? (t : List Char) (i : Nat) :
    (preserveWhitespaceChars t).get? i =
      if t.get? i = some ' ' ∧ (i = 0 ∨ i = t.length - 1 ∨ t.get? (i - 1) = some ' ')
      then some '\xA0' else t.get? i := by
  unfold preserveWhitespaceChars
  rcases Nat.lt_or_ge i t.length with h | h
  · rw [List.get?_map, List.get?_range h]
    cases hg : t.get? i with
    | none => rw [List.get?_eq_none] at hg; omega
    | some c =>
      simp only [Option.map_some']
      rw [hg]
      split_ifs with hcond <;> simp
  · have h1 : t.get? i = none := List.get?_eq_none.mpr h
    rw [List.get?_map, List.get?_eq_none.mpr (by simpa using h), h1]
    simp

/-- C7: `preserveWhitespace` converts to the non-breaking marker exactly
those spaces that are first, last, or immediately preceded by another
space: character `i` of the result is `\xA0` precisely when character `i`
of the input is a space in one of those positions, and is the input
character otherwise.  Concretely, in `"a  b"` only the second interior
space converts, a leading and a trailing single space both convert, and
the block `"a  b"` renders with the converted space emitted as the
non-breaking entity while the first stays literal. -/
theorem claim_C7 :
    (∀ (t : List Char) (i : Nat),
      (preserveWhitespaceChars t).get? i =
        if t.get? i = some ' ' ∧ (i = 0 ∨ i = t.length - 1 ∨ t.get? (i - 1) = some ' ')
        then some '\xA0' else t.get? i) ∧
    preserveWhitespace "a  b" = "a \xA0b" ∧
    preserveWhitespace " a" = "\xA0a" ∧
    preserveWhitespace "a " = "a\xA0" ∧
    renderBlockContent defaultCfg (pBlock "a  b") = "a &nbsp;b" := by
  exact ⟨preserveWhitespaceChars_get?, by decide, by decide, by decide, by decide⟩

/-! ### Empty blocks render a line break (C9) -/

/-- C9: a block whose text is empty renders as exactly one explicit
line-break marker, and at the full-generation level the block's tag pair
contains exactly that marker rather than being an empty pair of tags. -/
theorem claim_C9 :
    (∀ (cfg : GenConfig) (block : ContentBlock),
      block.text = "" → renderBlockContent cfg block = BREAK) ∧
    (stateToHTML initialTables [pBlock ""] ({} : Options)).2 = "<p><br></p>" := by
  constructor
  · intro cfg block h
    unfold renderBlockContent renderBlockContentAux
    rw [if_pos h]
  · decide

theorem claim_C9_witness :
    (pBlock "").text = "" ∧ renderBlockContent defaultCfg (pBlock "") = BREAK :=
  ⟨rfl, claim_C9.1 defaultCfg (pBlock "") rfl⟩

/-! ### Unregistered entity types render unwrapped (C1) -/

/-- C1 is false on the code: for the `FOO`-typed annotation (no registered
formatter) the range is emitted as its plain style-rendered content
`"click"`, not wrapped in a generic inline element — neither in the form
the source's `DEFAULT` formatter would actually produce nor in the
attribute-carrying form the claim describes. -/
theorem claim_C1_counterexample :
    renderBlockContent fooCfg linkBlock = "click" ∧
    renderBlockContent fooCfg linkBlock ≠ "<span$attrString\x7d>click</span>" ∧
    renderBlockContent fooCfg linkBlock ≠ "<span href=\"https://x\">click</span>" :=
  ⟨by decide, by decide, by decide⟩

/-- C1 (amended): for every entity range whose annotation resolves to a
type that has no formatter registered in the entity formatter map, the
range is emitted as its style-rendered content with no wrapping element at
all; the default formatter is not applied. -/
theorem claim_C1_amended :
    ∀ (cfg : GenConfig) (blockType : String)
      (piece : Option String × List (List Char × List String)) (e : EntityInstance),
      piece.1.bind cfg.entityGetter = some e →
      assocLookup cfg.entityFormatterMap (jsToUpper e.type) = none →
      renderEntityPiece cfg blockType piece =
        String.join (piece.2.map (fun sp =>
          applyStyles cfg blockType sp.2 (encodeContent ⟨sp.1⟩))) := by
  intro cfg blockType piece e h1 h2
  unfold renderEntityPiece renderEntityPieceAux
  rw [h1]
  simp [h2]

theorem claim_C1_amended_witness :
    (some "k1").bind fooCfg.entityGetter = some fooEntity ∧
    assocLookup fooCfg.entityFormatterMap (jsToUpper fooEntity.type) = none ∧
    renderEntityPiece fooCfg "unstyled" (some "k1", [("click".data, [])]) =
      String.join ([(("click".data : List Char), ([] : List String))].map (fun sp =>
        applyStyles fooCfg "unstyled" sp.2 (encodeContent ⟨sp.1⟩))) :=
  ⟨rfl, rfl,
    claim_C1_amended fooCfg "unstyled" (some "k1", [("click".data, [])]) fooEntity
      rfl rfl⟩

/-! ### The DEFAULT formatter dispatch (C10) -/

theorem renderEntityPieceAux_deadBranch_irrel
    (db db' : GenConfig → String → String → EntityInstance → String)
    (cfg : GenConfig) (blockType : String)
    (piece : Option String × List (List Char × List String)) :
    renderEntityPieceAux db cfg blockType piece =
      renderEntityPieceAux db' cfg blockType piece := by
  unfold renderEntityPieceAux
  cases hbind : piece.1.bind cfg.entityGetter with
  | none => rfl
  | some e =>
    cases hf : assocLookup cfg.entityFormatterMap (jsToUpper e.type) with
    | none => simp [hf]
    | some f => simp [hf]

theorem assocLookup_map_set {α : Type} (m : List (String × α))
    (k k' : String) (v : α) (h : k' ≠ k) :
    assocLookup (m.map (fun p => if p.1 = k then (p.1, v) else p)) k' =
      assocLookup m k' := by
  induction m with
  | nil => rfl
  | cons p m ih =>
    simp only [List.map_cons]
    by_cases hq : p.1 = k
    · have hne : ¬ (p.1 = k') := fun e => h (e ▸ hq)
      rw [if_pos hq]
      unfold assocLookup
      rw [List.find?_cons_of_neg _ (by simpa using hne),
        List.find?_cons_of_neg _ (by simpa using hne)]
      exact ih
    · rw [if_neg hq]
      unfold assocLookup
      by_cases hp : p.1 = k'
      · rw [List.find?_cons_of_pos _ (by simpa using hp),
          List.find?_cons_of_pos _ (by simpa using hp)]
      · rw [List.find?_cons_of_neg _ (by simpa using hp),
          List.find?_cons_of_neg _ (by simpa using hp)]
        exact ih

theorem assocLookup_append_single_ne {α : Type} (m : List (String × α))
    (k k' : String) (v : α) (h : k' ≠ k) :
    assocLookup (m ++ [(k, v)]) k' = assocLookup m k' := by
  unfold assocLookup
  rw [List.find?_append]
  have h2 : List.find? (fun p => p.1 = k') [(k, v)] = none := by
    rw [List.find?_cons_of_neg _ (by simpa using fun e : k = k' => h e.symm)]
    rfl
  rw [h2]
  simp

theorem assocLookup_assocSet_ne {α : Type} (m : List (String × α))
    (k k' : String) (v : α) (h : k' ≠ k) :
    assocLookup (assocSet m k v) k' = assocLookup m k' := by
  unfold assocSet
  split
  · exact assocLookup_map_set m k k' v h
  · exact assocLookup_append_single_ne m k k' v h

/-- C10 is false on the code in one point: for an annotation whose type
case-normalizes to `DEFAULT` itself, the formatter-map lookup finds the
`DEFAULT` entry as that type's own formatter, so the `DEFAULT` formatter is
invoked and overriding it through the options changes the output. -/
theorem claim_C10_counterexample :
    renderBlockContent dCfg dBlock = "<span$attrString\x7d>hi</span>" ∧
    renderBlockContent dCfgB dBlock = "[D]hi[/D]" ∧
    renderBlockContent dCfgB dBlock ≠ renderBlockContent dCfg dBlock :=
  ⟨by decide, by decide, by decide⟩

/-- C10 (amended): the else-branch of the formatter ternary that dispatches
to `entityFormatterMap.DEFAULT` is unreachable — `renderBlockContent` is
unchanged under any replacement of that branch — and replacing the
`DEFAULT` entry of the formatter map leaves the rendered block content
unchanged provided no entity range of the block resolves to an annotation
whose case-normalized type is the `DEFAULT` key itself (when one does, the
`DEFAULT` entry is that type's own formatter and does affect output, as
the counterexample shows). -/
theorem claim_C10_amended :
    (∀ (db : GenConfig → String → String → EntityInstance → String)
       (cfg : GenConfig) (block : ContentBlock),
      renderBlockContentAux db cfg block = renderBlockContent cfg block) ∧
    (∀ (cfg : GenConfig) (f : EntityFormatter) (block : ContentBlock),
      (∀ piece ∈ getEntityRanges (preserveWhitespace block.text).data block.chars,
        ∀ e, piece.1.bind cfg.entityGetter = some e → jsToUpper e.type ≠ "DEFAULT") →
      renderBlockContent
        {cfg with entityFormatterMap := assocSet cfg.entityFormatterMap "DEFAULT" f}
        block = renderBlockContent cfg block) := by
  constructor
  · intro db cfg block
    unfold renderBlockContent renderBlockContentAux
    split
    · rfl
    · rw [funext (fun piece =>
        renderEntityPieceAux_deadBranch_irrel db defaultDeadBranch cfg block.type piece)]
  · intro cfg f block h
    unfold renderBlockContent renderBlockContentAux
    split
    · rfl
    · apply congrArg
      apply List.map_congr_left
      intro piece hp
      unfold renderEntityPieceAux
      dsimp only
      cases hbind : piece.1.bind cfg.entityGetter with
      | none => rfl
      | some e =>
        have hne : jsToUpper e.type ≠ "DEFAULT" := h piece hp e hbind
        dsimp only
        rw [assocLookup_assocSet_ne cfg.entityFormatterMap "DEFAULT"
          (jsToUpper e.type) f hne]
        cases hlook : assocLookup cfg.entityFormatterMap (jsToUpper e.type) with
        | none => rfl
        | some f2 => rfl

theorem claim_C10_amended_witness :
    renderBlockContent
      {linkCfg with entityFormatterMap := assocSet linkCfg.entityFormatterMap "DEFAULT" junkEntityFormatter}
      linkBlock = renderBlockContent linkCfg linkBlock := by
  apply claim_C10_amended.2
  intro piece hp e he
  have hpieces : getEntityRanges (preserveWhitespace linkBlock.text).data
      linkBlock.chars = [(some "k1", [("click".data, [])])] := by decide
  rw [hpieces] at hp
  simp only [List.mem_singleton] at hp
  rw [hp] at he
  have : some linkEntity = some e := he
  have he2 : e = linkEntity := (Option.some_inj.mp this).symm
  rw [he2]
  decide

/-! ### Mutation of the module-level default tables (C2) -/

/-- C2 is false on the code: the constructor's `Object.assign` merge of an
`entityFormatterMap` option writes through the alias into the module-level
`ENTITY_FORMATTER_MAP`, so after one construction with a `LINK` override a
second, option-free generator renders a link with the overridden formatter
instead of the built-in one — its output differs from what it would
produce had the first call never run. -/
theorem claim_C2_counterexample :
    (stateToHTML (stateToHTML initialTables [] overrideLinkOptions).1 [linkBlock]
      {entityGetter := some linkGetter}).2 ≠
    (stateToHTML initialTables [linkBlock] {entityGetter := some linkGetter}).2 := by
  decide

/-- C2 (amended): construction and generation leave the module-level
default tables unchanged — and a second call on a separate generator
instance produces exactly the output it would produce had the first call
never run — provided the first call's options supply neither an
`entityFormatterMap` nor an `entityAttributesMap` entry; when they do, the
shared built-in tables are merged in place and later calls observe the
mutation, as the counterexample shows. -/
theorem claim_C2_amended (tables : ModuleTables) (content : List ContentBlock)
    (opts : Options) (h1 : opts.entityFormatterMap = none)
    (h2 : opts.entityAttributesMap = none) :
    (stateToHTML tables content opts).1 = tables ∧
    ∀ (content2 : List ContentBlock) (opts2 : Options),
      (stateToHTML (stateToHTML tables content opts).1 content2 opts2).2 =
      (stateToHTML tables content2 opts2).2 := by
  have key : (stateToHTML tables content opts).1 = tables := by
    simp [stateToHTML, mkGenerator, h1, h2]
  exact ⟨key, fun content2 opts2 => by rw [key]⟩

theorem claim_C2_amended_witness :
    ({} : Options).entityFormatterMap = none ∧
    (stateToHTML initialTables [] ({} : Options)).1 = initialTables :=
  ⟨rfl, (claim_C2_amended initialTables [] {} rfl rfl).1⟩

/-! ### Fixed style nesting order (C5) -/

theorem applyStyles_congr (cfg : GenConfig) (blockType content : String)
    (ss₁ ss₂ : List String) (h : ∀ x, x ∈ ss₁ ↔ x ∈ ss₂) :
    applyStyles cfg blockType ss₁ content = applyStyles cfg blockType ss₂ content := by
  unfold applyStyles
  induction cfg.styleOrder generalizing content with
  | nil => rfl
  | cons sn order ih =>
    simp only [List.foldl_cons]
    have hc : ss₁.contains sn = ss₂.contains sn := by
      by_cases hm : sn ∈ ss₁
      · show List.elem sn ss₁ = List.elem sn ss₂
        rw [List.elem_eq_true_of_mem hm, List.elem_eq_true_of_mem ((h sn).mp hm)]
      · have hm2 : sn ∉ ss₂ := fun hx => hm ((h sn).mpr hx)
        have e1 : ss₁.contains sn = false := by simp; exact hm
        have e2 : ss₂.contains sn = false := by simp; exact hm2
        rw [e1, e2]
    rw [hc]
    exact ih _

theorem applyStyles_default_bold_italic (blockType content : String)
    (ss : List String) (h : ∀ x, x ∈ ss ↔ (x = "BOLD" ∨ x = "ITALIC")) :
    applyStyles defaultCfg blockType ss content =
      "<em><strong>" ++ content ++ "</strong></em>" := by
  have hB : "BOLD" ∈ ss := (h "BOLD").mpr (Or.inl rfl)
  have hI : "ITALIC" ∈ ss := (h "ITALIC").mpr (Or.inr rfl)
  have hU : "UNDERLINE" ∉ ss := by simp +decide [h]
  have hS : "STRIKETHROUGH" ∉ ss := by simp +decide [h]
  have hC : "CODE" ∉ ss := by simp +decide [h]
  unfold applyStyles
  simp only [show defaultCfg.styleOrder = DEFAULT_STYLE_ORDER from rfl,
    show defaultCfg.inlineStyles = DEFAULT_STYLE_MAP from rfl, DEFAULT_STYLE_ORDER]
  simp only [List.foldl_cons, List.foldl_nil]
  simp +decide [hB, hI, hU, hS, hC, assocLookup, List.find?, DEFAULT_STYLE_MAP,
    normalizeAttributes, stringifyAttrs]
  simp only [String.append_assoc]
  rw [← String.append_assoc "<em>" "<strong>",
    show ("<em>" : String) ++ "<strong>" = "<em><strong>" from rfl,
    show ("</" : String) ++ ("strong" ++ (">" ++ ("</" ++ ("em" ++ ">")))) =
      "</strong></em>" from rfl]

/-- C5: a style run whose active style set is exactly \x7bbold, italic\x7d
renders under the default configuration as `<em><strong>` around the
content (italic outer, bold inner), whatever the iteration order of the
set; and in general the rendered nesting depends only on membership in the
style set — sets with the same members render identically, the wrapping
always following the configured inner-to-outer order.  The last conjunct
checks the full pipeline on a block styled bold+italic. -/
theorem claim_C5 :
    (∀ (blockType content : String) (ss : List String),
      (∀ x, x ∈ ss ↔ (x = "BOLD" ∨ x = "ITALIC")) →
      applyStyles defaultCfg blockType ss content =
        "<em><strong>" ++ content ++ "</strong></em>") ∧
    (∀ (cfg : GenConfig) (blockType content : String) (ss₁ ss₂ : List String),
      (∀ x, x ∈ ss₁ ↔ x ∈ ss₂) →
      applyStyles cfg blockType ss₁ content = applyStyles cfg blockType ss₂ content) ∧
    (stateToHTML initialTables [biBlock] ({} : Options)).2 =
      "<p><em><strong>text</strong></em></p>" :=
  ⟨applyStyles_default_bold_italic, applyStyles_congr, by decide⟩

theorem claim_C5_witness :
    applyStyles defaultCfg "unstyled" ["ITALIC", "BOLD"] "text" =
      "<em><strong>text</strong></em>" ∧
    applyStyles defaultCfg "unstyled" ["BOLD", "ITALIC"] "x" =
      applyStyles defaultCfg "unstyled" ["ITALIC", "BOLD"] "x" :=
  ⟨claim_C5.1 "unstyled" "text" ["ITALIC", "BOLD"]
      (by intro x; simp [List.mem_cons, List.mem_singleton]; tauto),
   claim_C5.2.1 defaultCfg "unstyled" "x" ["BOLD", "ITALIC"] ["ITALIC", "BOLD"]
      (by intro x; simp [List.mem_cons, List.mem_singleton]; tauto)⟩

/-! ### Link annotation rendering and default attribute resolution (C6) -/

theorem ne_of_isDataAttribute {k s : String} (hk : isDataAttribute k = true)
    (hs : isDataAttribute s = false) : k ≠ s := by
  intro e
  subst e
  rw [hk] at hs
  exact absurd hs (by decide)

/-- C6: the run `"click"` with a link annotation whose data is
`\x7burl: "https://x"\x7d` renders as `<a href="https://x">click</a>`
(also at the full-generation level); the default attribute resolution maps
the `url` data key to `href` through the `LINK` entry of the type-specific
attribute table, and passes any additional data key matching the `data-*`
pattern through unchanged. -/
theorem claim_C6 :
    renderBlockContent linkCfg linkBlock = "<a href=\"https://x\">click</a>" ∧
    (stateToHTML initialTables [linkBlock] {entityGetter := some linkGetter}).2 =
      "<p><a href=\"https://x\">click</a></p>" ∧
    (∀ u : String, dataToAttrDefault ENTITY_ATTR_MAP "LINK"
      {type := "LINK", data := [("url", u)]} = [("href", some u)]) ∧
    (∀ u k v : String, isDataAttribute k = true →
      dataToAttrDefault ENTITY_ATTR_MAP "LINK"
        {type := "LINK", data := [("url", u), (k, v)]} =
        [("href", some u), (k, some v)]) := by
  refine ⟨by decide, by decide, fun u => rfl, fun u k v hk => ?_⟩
  have h1 : k ≠ "url" := ne_of_isDataAttribute hk (by decide)
  have h2 : k ≠ "rel" := ne_of_isDataAttribute hk (by decide)
  have h3 : k ≠ "target" := ne_of_isDataAttribute hk (by decide)
  have h4 : k ≠ "title" := ne_of_isDataAttribute hk (by decide)
  have h5 : k ≠ "className" := ne_of_isDataAttribute hk (by decide)
  have h6 : k ≠ "href" := ne_of_isDataAttribute hk (by decide)
  simp only [dataToAttrDefault, ENTITY_ATTR_MAP, assocLookup, assocSet, assocHas,
    List.find?, List.foldl]
  simp +decide [h1.symm, h2.symm, h3.symm, h4.symm, h5.symm, h6.symm, hk]

theorem claim_C6_witness :
    isDataAttribute "data-id" = true ∧
    dataToAttrDefault ENTITY_ATTR_MAP "LINK"
      {type := "LINK", data := [("url", "https://x"), ("data-id", "7")]} =
      [("href", some "https://x"), ("data-id", some "7")] :=
  ⟨by decide, claim_C6.2.2.2 "https://x" "data-id" "7" (by decide)⟩

/-! ### Nested list generation on depths [0, 1, 1] (C4) -/

/-- C4: three unordered-list-item blocks at depths `[0, 1, 1]` generate one
outer list wrapper containing the first list item, which itself contains a
nested list wrapper with the second and third items; every opened wrapper
and element tag in the output is closed exactly once (the scanner checks
the emitted string, and the wrapper trace is fully matched). -/
theorem claim_C4 :
    (stateToHTML initialTables [ulBlock "a" 0, ulBlock "b" 1, ulBlock "c" 1]
      ({} : Options)).2 =
      "<ul>\n  <li>a\n    <ul>\n      <li>b</li>\n      <li>c</li>\n    </ul>\n  </li>\n</ul>" ∧
    tagsBalanced
      "<ul>\n  <li>a\n    <ul>\n      <li>b</li>\n      <li>c</li>\n    </ul>\n  </li>\n</ul>" = true ∧
    wrapperPending
      (generateState defaultCfg [ulBlock "a" 0, ulBlock "b" 1, ulBlock "c" 1]).output =
      some [] :=
  ⟨by decide, by decide, by decide⟩

/-! ### The wrapper-tag invariant (C3) -/

theorem wrapperPending_append (out : List OutputItem) (item : OutputItem) :
    wrapperPending (out ++ [item]) = wrapperStep (wrapperPending out) item := by
  unfold wrapperPending
  rw [List.foldl_append]
  rfl

theorem WInv_pushText {s : GenState} {ctx : List String} (h : WInv s ctx)
    (t : String) : WInv (pushItem s (.text t)) ctx := by
  unfold WInv pushItem at *
  simp only [wrapperPending_append]
  exact h

theorem WInv_indentS {s : GenState} {ctx : List String} (h : WInv s ctx) :
    WInv (indentS s) ctx :=
  WInv_pushText h _

theorem WInv_foldl_pushText {β : Type} {ctx : List String} {f : β → String}
    (l : List β) {s : GenState} (h : WInv s ctx) :
    WInv (l.foldl (fun s x => pushItem s (.text (f x))) s) ctx := by
  induction l generalizing s with
  | nil => exact h
  | cons b l ih => exact ih (WInv_pushText h _)

theorem WInv_writeStartTag {s : GenState} {ctx : List String}
    (cfg : GenConfig) (block : ContentBlock) (h : WInv s ctx) :
    WInv (writeStartTag cfg s block) ctx := by
  unfold writeStartTag
  exact WInv_foldl_pushText _ h

theorem WInv_writeEndTag {s : GenState} {ctx : List String}
    (block : ContentBlock) (h : WInv s ctx) : WInv (writeEndTag s block) ctx := by
  unfold writeEndTag
  split
  · exact WInv_pushText h _
  · exact WInv_pushText h _

theorem WInv_close {s : GenState} {ctx : List String} (h : WInv s ctx) :
    WInv (closeWrapperTag s) ctx ∧ (closeWrapperTag s).wrapperTag = none := by
  unfold closeWrapperTag
  cases hw : s.wrapperTag with
  | none => exact ⟨h, hw⟩
  | some tag =>
    constructor
    · unfold WInv at *
      simp only [pushItem, indentS, wrapperPending_append]
      rw [hw] at h
      rw [show wrapperStep (wrapperPending s.output) (.text _) =
        wrapperPending s.output from rfl, h]
      simp [wrapperStep, wrapperStack]
    · rfl

theorem WInv_open {s : GenState} {ctx : List String} (h : WInv s ctx)
    (hw : s.wrapperTag = none) (tag : String) :
    WInv (openWrapperTag s tag) ctx ∧
      (openWrapperTag s tag).wrapperTag = some tag := by
  constructor
  · unfold WInv openWrapperTag at *
    simp only [pushItem, indentS, wrapperPending_append]
    rw [hw] at h
    rw [show wrapperStep (wrapperPending s.output) (.text _) =
      wrapperPending s.output from rfl, h]
    simp [wrapperStep, wrapperStack]
  · rfl

theorem WInv_wrapperTransition {s : GenState} {ctx : List String}
    (h : WInv s ctx) (nt : Option String) :
    WInv (wrapperTransition s nt) ctx ∧ (wrapperTransition s nt).wrapperTag = nt := by
  unfold wrapperTransition
  by_cases he : s.wrapperTag = nt
  · rw [if_neg (by simp [he])]
    exact ⟨h, he⟩
  · rw [if_pos (by simp [he])]
    by_cases hs : s.wrapperTag.isSome
    · rw [if_pos hs]
      obtain ⟨h1, h2⟩ := WInv_close h
      cases nt with
      | none => exact ⟨h1, h2⟩
      | some tag => exact WInv_open h1 h2 tag
    · rw [if_neg hs]
      have h2 : s.wrapperTag = none := Option.not_isSome_iff_eq_none.mp hs
      cases nt with
      | none => exact ⟨h, h2⟩
      | some tag => exact WInv_open h h2 tag

theorem WInv_stash {s : GenState} {ctx : List String} (h : WInv s ctx) :
    WInv {s with wrapperTag := none, indentLevel := s.indentLevel + 1,
                 currentBlock := s.currentBlock + 1}
      (wrapperStack s.wrapperTag ctx) := by
  unfold WInv at *
  exact h

theorem WInv_restore {s' : GenState} {w : Option String} {ctx : List String}
    (h : WInv s' (wrapperStack w ctx)) (hw : s'.wrapperTag = none) :
    WInv {s' with wrapperTag := w, indentLevel := s'.indentLevel - 1} ctx := by
  unfold WInv at *
  rw [hw] at h
  exact h

theorem processBlock_pdLoop_WInv (fuel : Nat) :
    (∀ (cfg : GenConfig) (s : GenState) (ctx : List String),
      WInv s ctx → WInv (processBlock fuel cfg s) ctx) ∧
    (∀ (cfg : GenConfig) (d : Nat) (s : GenState) (ctx : List String),
      WInv s ctx → WInv (pdLoop fuel cfg d s) ctx) := by
  induction fuel with
  | zero => exact ⟨fun _ _ _ h => h, fun _ _ _ _ h => h⟩
  | succ n ih =>
    obtain ⟨ihPB, ihPD⟩ := ih
    constructor
    · intro cfg s ctx h
      simp only [processBlock]
      split
      · exact h
      · rename_i block hb
        have h1 := WInv_indentS (WInv_wrapperTransition h (getWrapperTag block.type)).1
        split
        · rename_i out hco
          exact WInv_pushText (WInv_pushText h1 out) "\n"
        · have h2 := WInv_pushText (WInv_writeStartTag cfg block h1)
            (renderBlockContent cfg block)
          split
          · rename_i nextBlock hnb
            split
            · have h4 := WInv_pushText h2 "\n"
              have h5 := WInv_stash h4
              have h6 := ihPD cfg nextBlock.depth _ _ h5
              obtain ⟨h7, h8⟩ := WInv_close h6
              exact WInv_writeEndTag block (WInv_indentS (WInv_restore h7 h8))
            · exact WInv_writeEndTag block h2
          · exact WInv_writeEndTag block h2
    · intro cfg d s ctx h
      simp only [pdLoop]
      split
      · rename_i block hb
        split
        · exact ihPD cfg d _ ctx (ihPB cfg s ctx h)
        · exact h
      · exact h

theorem genLoop_WInv (fuel : Nat) (cfg : GenConfig) (s : GenState)
    (ctx : List String) (h : WInv s ctx) : WInv (genLoop fuel cfg s) ctx := by
  induction fuel generalizing s with
  | zero => exact h
  | succ n ih =>
    simp only [genLoop]
    split
    · exact ih _ ((processBlock_pdLoop_WInv n).1 cfg s ctx h)
    · exact h

/-- C3: at the point of `generate`'s return the `wrapperTag` field (which
holds the at-most-one currently open wrapper tag) is `null`, and every
wrapper start tag emitted into the output has a matching wrapper end tag,
in properly nested order — for every configuration and document. -/
theorem claim_C3 (cfg : GenConfig) (blocks : List ContentBlock) :
    (generateState cfg blocks).wrapperTag = none ∧
    wrapperPending (generateState cfg blocks).output = some [] := by
  have h0 : WInv (initState blocks) [] := rfl
  have h1 : WInv (genLoop (genFuel blocks) cfg (initState blocks)) [] :=
    genLoop_WInv _ cfg _ [] h0
  obtain ⟨h2, h3⟩ := WInv_close h1
  refine ⟨h3, ?_⟩
  unfold WInv at h2
  rw [h3] at h2
  exact h2

end StateToHtml
